import Mathlib

/-!
Verification of the `babou` surreal-number library against its specification.

The Python source (src/babou/base.py, src/babou/dyadic.py) is shallowly embedded
below.  Surreal number forms and surreal sets become a mutual inductive type,
the lazily synthesised canonical left/right sets become the functions
`Babou.Surreal.leftS` / `Babou.Surreal.rightS`, and the mutually recursive,
dynamically dispatched comparison operators become a single fuel-indexed
interpreter `Babou.run` over an inductive type `Babou.Q` of pending comparison
queries.  `none` means the Python computation does not return a boolean there:
either it raises (TypeError from iterating `DYADICS`, TransfiniteError from
`SurrealSet.__gt__`, a failed reflected-operator dispatch, ...) or the available
fuel is exhausted (the genuine recursions of the source need no more fuel than
we supply at each concrete evaluation).
-/

namespace Babou

mutual

/-- Surreal number forms, mirroring the Python class hierarchy:
`int n` is `IntegerSurreal(n)`, `dy q` is `DyadicFractionSurreal(Fraction q)`,
`omega b` is `OmegaType(sign)` with `b = true` for `+ω`,
`omegaPlus n` is `OmegaPlusInteger(n)`, and `basic l r` is `BasicSurreal(l, r)`. -/
inductive Surreal : Type where
  | int (n : Int)
  | dy (q : Rat)
  | omega (pos : Bool)
  | omegaPlus (n : Int)
  | basic (l r : SSet)
  deriving DecidableEq

/-- Surreal sets, mirroring `EmptySurrealSet`, `ExplicitSurrealSet` and the
`DyadicsType` singleton `DYADICS`. -/
inductive SSet : Type where
  | empty
  | explicit (xs : SList)
  | dyadics
  deriving DecidableEq

/-- Lists of surreal forms (the `_items` list of an `ExplicitSurrealSet`). -/
inductive SList : Type where
  | nil
  | cons (x : Surreal) (xs : SList)
  deriving DecidableEq

end

end Babou

namespace Babou

/-- The shared `OMEGA` singleton. -/
def OMEGA : Surreal := .omega true

/-- The shared `NEGATIVE_OMEGA` singleton. -/
def NEGATIVE_OMEGA : Surreal := .omega false

/-- `Surreal.left`, assembled from each concrete class:
`IntegerSurreal.left` is `{value-1}` when positive else empty;
`DyadicFractionSurreal.left` is `{Fraction(numerator-1, denominator)}`
(`Fraction` normalises, hence `mkRat`); `OmegaType.left` is `DYADICS` for `+ω`
and empty for `-ω`; `OmegaPlusInteger.left` follows its four-way branch;
`BasicSurreal.left` is the stored set. -/
def Surreal.leftS : Surreal → SSet
  | .int n => if 0 < n then .explicit (.cons (.int (n - 1)) .nil) else .empty
  | .dy q => .explicit (.cons (.dy (mkRat (q.num - 1) q.den)) .nil)
  | .omega pos => if pos then .dyadics else .empty
  | .omegaPlus n =>
      if n = 1 then .explicit (.cons OMEGA .nil)
      else if 1 < n then .explicit (.cons (.omegaPlus (n - 1)) .nil)
      else if n = -1 then .dyadics
      else .explicit (.cons (.omegaPlus (n + 1)) .nil)
  | .basic l _ => l

/-- `Surreal.right`, assembled from each concrete class (mirror of `leftS`;
`OmegaPlusInteger.right` follows its three-way branch in the source). -/
def Surreal.rightS : Surreal → SSet
  | .int n => if n < 0 then .explicit (.cons (.int (n + 1)) .nil) else .empty
  | .dy q => .explicit (.cons (.dy (mkRat (q.num + 1) q.den)) .nil)
  | .omega pos => if pos then .empty else .dyadics
  | .omegaPlus n =>
      if n = -1 then .explicit (.cons OMEGA .nil)
      else if 1 ≤ n then .empty
      else .explicit (.cons (.omegaPlus (n + 1)) .nil)
  | .basic _ r => r

/-- `dyadic.is_dyadic(fraction)`: `not (den & (den - 1))` on the (always
positive, already reduced) denominator of a Python `Fraction`; Lean's `Rat.den`
is likewise positive and reduced, so `abs` is the identity. -/
def is_dyadic (q : Rat) : Bool := decide (q.den &&& (q.den - 1) = 0)

/-- `dyadic._is_power_of_2(val)`: `not (val & (val - 1))` on an
arbitrary-precision Python int.  Python's `&` acts on infinite two's-complement
integers: for `val = 0` the result is `0 & -1 = 0` (so the test is true); for
`val < 0` both `val` and `val - 1` are negative, their conjunction is negative
and hence nonzero (test false); for `val > 0` it is `Nat.land`. -/
def _is_power_of_2 (val : Int) : Bool :=
  if val = 0 then true
  else if val < 0 then false
  else decide (val.toNat &&& (val.toNat - 1) = 0)

/-- In the shortcut loop of `DyadicFractionSurreal.__lt__`, whether some member
of the iterated set is an `IntegerSurreal` or `DyadicFractionSurreal` whose
exact value satisfies `self._value <= item._value`. -/
def hasDyLeWitness (p : Rat) : SList → Bool
  | .nil => false
  | .cons (.int k) xs => (decide (p ≤ (k : Rat))) || hasDyLeWitness p xs
  | .cons (.dy q) xs => (decide (p ≤ q)) || hasDyLeWitness p xs
  | .cons _ xs => hasDyLeWitness p xs

/-- In the shortcut loop of `DyadicFractionSurreal.__gt__`, whether some dyadic
member of the iterated set satisfies `self._value >= item._value`. -/
def hasDyGeWitness (p : Rat) : SList → Bool
  | .nil => false
  | .cons (.int k) xs => (decide ((k : Rat) ≤ p)) || hasDyGeWitness p xs
  | .cons (.dy q) xs => (decide (q ≤ p)) || hasDyGeWitness p xs
  | .cons _ xs => hasDyGeWitness p xs

/-- Pending comparison queries of the mutually recursive Python comparison
protocol.  `le a b` is `a <= b` (with its per-class dispatch), `lt`/`gt`/`eq`
likewise; `setLtNum s b` is `s < b` on a `SurrealSet` receiver; `setGtNum s a`
is `s > a`; `numLtSet a s` is `a < s` (a `Surreal` against a `SurrealSet`,
resolved through `NotImplemented` and the reflected operator);
`allLt`/`allGt` are the `all(...)` loops of `FiniteSurrealSet.__lt__`/`__gt__`;
`mem s x` is `x in s`; `memList` is Python list membership (by `==`). -/
inductive Q : Type where
  | le (a b : Surreal)
  | lt (a b : Surreal)
  | gt (a b : Surreal)
  | eq (a b : Surreal)
  | setLtNum (s : SSet) (b : Surreal)
  | setGtNum (s : SSet) (a : Surreal)
  | numLtSet (a : Surreal) (s : SSet)
  | allLt (xs : SList) (b : Surreal)
  | allGt (xs : SList) (a : Surreal)
  | mem (s : SSet) (x : Surreal)
  | memList (xs : SList) (x : Surreal)

/-- Fuel-indexed interpreter for the comparison protocol.  Each arm transcribes
the corresponding Python method together with Python's binary-operator
dispatch (`NotImplemented` falling back to the reflected operator).  Python's
object-identity test `other is self` in `Surreal.__eq__` (and the identity
pre-check of list membership) is modelled by structural equality.  Identity
implies structural equality, so this over-approximates the shortcut; the
approximation is exact on every `eq` query evaluated by the theorems below,
which compare either one and the same term (where Python's identity test also
fires) or terms built from distinct constructors (where both tests fail).
`and`/`all`/`any` short-circuit exactly as in Python. -/
def run : Nat → Q → Option Bool
  | 0, _ => none
  | fuel + 1, q =>
    match q with
    | .le a b =>
      match a, b with
      -- IntegerSurreal.__le__ with an IntegerSurreal operand: native int compare
      | .int m, .int n => some (decide (m ≤ n))
      -- DyadicFractionSurreal.__le__ with a DFS operand: native Fraction compare
      | .dy p, .dy q => some (decide (p ≤ q))
      -- every other pairing delegates to Surreal.__le__:
      -- `self.left < other and self < other.right`
      | a, b =>
        match run fuel (.setLtNum a.leftS b) with
        | some false => some false
        | some true => run fuel (.numLtSet a b.rightS)
        | none => none
    | .lt a b =>
      match a, b with
      | .int m, .int n => some (decide (m < n))
      | .dy p, b =>
        -- DyadicFractionSurreal.__lt__: scan other.left for a dyadic witness
        -- with self._value <= item._value, short-circuiting to True
        match b.leftS with
        | .dyadics => none  -- `for item in DYADICS` raises TypeError (not iterable)
        | .empty =>
          match b with
          | .dy q => some (decide (p < q))
          | _ =>
            match run fuel (.le (.dy p) b) with
            | some false => some false
            | some true => (run fuel (.le b (.dy p))).map (fun w => !w)
            | none => none
        | .explicit xs =>
          if hasDyLeWitness p xs then some true
          else
            match b with
            | .dy q => some (decide (p < q))
            | _ =>
              match run fuel (.le (.dy p) b) with
              | some false => some false
              | some true => (run fuel (.le b (.dy p))).map (fun w => !w)
              | none => none
      | a, b =>
        -- Surreal.__lt__: `self <= other and not other <= self`
        match run fuel (.le a b) with
        | some false => some false
        | some true => (run fuel (.le b a)).map (fun w => !w)
        | none => none
    | .gt a b =>
      match a, b with
      | .int m, .int n => some (decide (n < m))
      | .dy p, b =>
        -- DyadicFractionSurreal.__gt__: scan other.right for a dyadic witness
        -- with self._value >= item._value, short-circuiting to True
        match b.rightS with
        | .dyadics => none
        | .empty =>
          match b with
          | .dy q => some (decide (q < p))
          | _ =>
            match run fuel (.le b (.dy p)) with
            | some false => some false
            | some true => (run fuel (.le (.dy p) b)).map (fun w => !w)
            | none => none
        | .explicit xs =>
          if hasDyGeWitness p xs then some true
          else
            match b with
            | .dy q => some (decide (q < p))
            | _ =>
              match run fuel (.le b (.dy p)) with
              | some false => some false
              | some true => (run fuel (.le (.dy p) b)).map (fun w => !w)
              | none => none
      | a, b =>
        -- Surreal.__gt__: `other <= self and not self <= other`
        match run fuel (.le b a) with
        | some false => some false
        | some true => (run fuel (.le a b)).map (fun w => !w)
        | none => none
    | .eq a b =>
      match a, b with
      | .int m, .int n => some (decide (m = n))
      | .dy p, .dy q => some (decide (p = q))
      | a, b =>
        -- Surreal.__eq__: identity shortcut, then `self <= other and other <= self`
        if a = b then some true
        else
          match run fuel (.le a b) with
          | some false => some false
          | some true => run fuel (.le b a)
          | none => none
    | .setLtNum s b =>
      match s with
      -- FiniteSurrealSet.__lt__: all(i < value)
      | .empty => some true
      | .explicit xs => run fuel (.allLt xs b)
      | .dyadics =>
        -- DyadicsType.__lt__
        match b with
        | .omega _ => some false
        | .int _ => some false
        | .dy _ => some false
        | b =>
          -- `if OMEGA in other.left: return True`, else NotImplemented; the
          -- reflected `other.__gt__(DYADICS)` also fails, so Python raises
          match run fuel (.mem b.leftS OMEGA) with
          | some true => some true
          | some false => none
          | none => none
    | .setGtNum s a =>
      match s with
      -- FiniteSurrealSet.__gt__: all(i > value)
      | .empty => some true
      | .explicit xs => run fuel (.allGt xs a)
      -- SurrealSet.__gt__ raises TransfiniteError for DYADICS
      | .dyadics => none
    | .numLtSet a s =>
      match a with
      | .dy p =>
        -- DyadicFractionSurreal.__lt__ given a bare SurrealSet operand
        match s with
        | .dyadics => none  -- iterating DYADICS raises TypeError
        | .empty => run fuel (.setGtNum .empty (.dy p))
        | .explicit xs =>
          if hasDyLeWitness p xs then some true
          else run fuel (.setGtNum (.explicit xs) (.dy p))
      | a =>
        -- number.__lt__(set) is NotImplemented; Python falls back to the
        -- reflected set.__gt__(number)
        run fuel (.setGtNum s a)
    | .allLt xs b =>
      match xs with
      | .nil => some true
      | .cons x rest =>
        match run fuel (.lt x b) with
        | some false => some false
        | some true => run fuel (.allLt rest b)
        | none => none
    | .allGt xs a =>
      match xs with
      | .nil => some true
      | .cons x rest =>
        match run fuel (.gt x a) with
        | some false => some false
        | some true => run fuel (.allGt rest a)
        | none => none
    | .mem s x =>
      match s with
      | .empty => some false
      | .explicit xs => run fuel (.memList xs x)
      | .dyadics =>
        -- DyadicsType.__contains__: item.is_dyadic(); BasicSurreal raises
        match x with
        | .int _ => some true
        | .dy _ => some true
        | .omega _ => some false
        | .omegaPlus _ => some false
        | .basic _ _ => none
    | .memList xs x =>
      match xs with
      | .nil => some false
      | .cons y rest =>
        match run fuel (.eq x y) with
        | some true => some true
        | some false => run fuel (.memList rest x)
        | none => none

/-- Errors of the embedded operations.  `notImplementedError` covers both the
explicit `raise NotImplementedError(...)` in `Surreal.from_fraction` and the
`NotImplementedError` raised by the abstract `numbers.Complex.__truediv__`
reached through `getattr(super(), opname)`; the others are the corresponding
Python exceptions. -/
inductive PyErr : Type where
  | notImplementedError
  | zeroDivisionError
  | valueError
  deriving DecidableEq

/-- `Surreal.from_fraction`: integers peel off to `IntegerSurreal`, dyadic
fractions to `DyadicFractionSurreal`, anything else raises
`NotImplementedError("only dyadic fractions supported, ...")`.  Python
`Fraction`s are stored reduced with positive denominator, exactly like
`Rat`. -/
def Surreal.from_fraction (q : Rat) : Except PyErr Surreal :=
  if q.den = 1 then .ok (.int q.num)
  else if is_dyadic q then .ok (.dy q)
  else .error .notImplementedError

/-- Result of an embedded `__truediv__` call: a surreal value, a native Python
float (we record the exact mathematical quotient; the Python value is the
IEEE-754 double nearest to it, and the claims depend only on the result being
a float rather than a surreal or an exception), or a raised exception. -/
inductive DivOutcome : Type where
  | value (s : Surreal)
  | float (q : Rat)
  | error (e : PyErr)
  deriving DecidableEq

/-- The `DyadicFractionSurreal(value)` constructor: raises `ValueError` when
the fraction is not dyadic. -/
def mkDFS (v : Rat) : DivOutcome :=
  if is_dyadic v then .value (.dy v) else .error .valueError

/-- Python's `Fraction(a, b)` on integer arguments (`b ≠ 0`): the reduced
rational `a / b`, sign normalised into the numerator — exactly `mkRat` after
moving `b`'s sign to `a`.  The `b = 0` `ZeroDivisionError` case is handled at
each call site. -/
def pyFraction (a b : Int) : Rat := mkRat (if b < 0 then -a else a) b.natAbs

/-- Exact `Fraction` division `p / q` (`q ≠ 0`):
`(p.num * q.den) / (p.den * q.num)`, reduced. -/
def fracDiv (p q : Rat) : Rat := pyFraction (p.num * q.den) ((p.den : Int) * q.num)

/-- `IntegerSurreal.__truediv__`.  An `IntegerSurreal` divisor is
`numbers.Integral`: if its value is `_is_power_of_2` the result is
`DyadicFractionSurreal(Fraction(self._value, intval))` (for `intval = 0` that
`Fraction` raises `ZeroDivisionError`), otherwise the call falls through to
`_binary_op`, which applies native `operator.__truediv__` to the two ints and
returns the resulting float unwrapped.  A `DyadicFractionSurreal` divisor is
`numbers.Rational`: if its numerator is a power of two the result is
`DyadicFractionSurreal(Fraction(self._value, other))`, otherwise `_binary_op`
delegates to the abstract `numbers.Complex.__truediv__`, which raises
`NotImplementedError` — as it also does for every other surreal divisor. -/
def IntegerSurreal.truediv (m : Int) : Surreal → DivOutcome
  | .int k =>
      if _is_power_of_2 k then
        if k = 0 then .error .zeroDivisionError
        else mkDFS (pyFraction m k)
      else .float (pyFraction m k)
  | .dy q =>
      if _is_power_of_2 q.num then mkDFS (fracDiv (mkRat m 1) q)
      else .error .notImplementedError
  | _ => .error .notImplementedError

/-- `DyadicFractionSurreal.__truediv__` = `_binary_op('__truediv__', other)`:
for a `DyadicFractionSurreal` divisor the native exact `Fraction` quotient is
computed (raising `ZeroDivisionError` on a zero divisor) and then re-wrapped
through `base.Surreal(result)`, i.e. `from_fraction`; any other surreal
divisor reaches the abstract `numbers.Complex.__truediv__` and raises
`NotImplementedError`. -/
def DyadicFractionSurreal.truediv (p : Rat) : Surreal → DivOutcome
  | .dy q =>
      if q = 0 then .error .zeroDivisionError
      else
        match Surreal.from_fraction (fracDiv p q) with
        | .ok s => .value s
        | .error e => .error e
  | _ => .error .notImplementedError

/-- `IntegerSurreal.birthday`: `abs(self._value)`. -/
def IntegerSurreal.birthday (n : Int) : Int := |n|

/-- `DyadicFractionSurreal.birthday`: `abs(self._value)` — the absolute value
of the stored `Fraction` itself, a rational number. -/
def DyadicFractionSurreal.birthday (q : Rat) : Rat := |q|

/-- `DyadicSurreal.birthday_finite`: constantly `True`. -/
def DyadicSurreal.birthday_finite : Bool := true

/-- `IntegerSurreal.__pos__`: the body is the bare expression statement `self`
— it evaluates `self` and falls off the end, so the call returns `None`. -/
def IntegerSurreal.pos (_n : Int) : Option Surreal := none

/-- `DyadicFractionSurreal.__pos__`: same bare `self` expression statement, so
the call returns `None`. -/
def DyadicFractionSurreal.pos (_q : Rat) : Option Surreal := none

/-- `OmegaType.__add__` restricted to integer addends (the claim's scope; a
non-`Integral` addend raises instead).  The body is
`OmegaPlusInteger(other)` — it never consults `self._sign` — and the
`OmegaPlusInteger` constructor raises `ValueError` on a zero addend. -/
def OmegaType.add (_sign : Bool) (other : Int) : Except PyErr Surreal :=
  if other = 0 then .error .valueError
  else .ok (.omegaPlus other)

/-- Python's `min(iterable)`: the first element seeds the accumulator, each
later element `x` replaces it when `x < current` (via the dispatched `__lt__`).
`none` when some comparison does not produce a boolean. -/
def pyMinFrom (fuel : Nat) : Surreal → SList → Option Surreal
  | best, .nil => some best
  | best, .cons x rest =>
      match run fuel (.lt x best) with
      | some true => pyMinFrom fuel x rest
      | some false => pyMinFrom fuel best rest
      | none => none

/-- Python's `max(iterable)`: like `pyMinFrom` with `x > current`. -/
def pyMaxFrom (fuel : Nat) : Surreal → SList → Option Surreal
  | best, .nil => some best
  | best, .cons x rest =>
      match run fuel (.gt x best) with
      | some true => pyMaxFrom fuel x rest
      | some false => pyMaxFrom fuel best rest
      | none => none

/-- Outcome of a call to `FiniteSurrealSet.smallest`/`largest`:
`returns v` would be a normal return of `v` (`none` standing for Python
`None`), `raisesObj payload` is execution of a `raise <payload>` statement
(the payloads here are surreal numbers or `None`, neither of which is an
exception class, so the statement surfaces as a `TypeError`), and `errs` is an
exception escaping from the evaluation of the `raise` statement's operand. -/
inductive CallOutcome : Type where
  | returns (v : Option Surreal)
  | raisesObj (payload : Option Surreal)
  | errs
  deriving DecidableEq

/-- `FiniteSurrealSet.smallest`: the body is
`raise min(self) if self else None` — a `raise` statement, not a `return`.
For a non-empty set it raises the computed `min(self)`; for an empty set it
raises `None`. -/
def FiniteSurrealSet.smallest (fuel : Nat) : SList → CallOutcome
  | .nil => .raisesObj none
  | .cons x rest =>
      match pyMinFrom fuel x rest with
      | some m => .raisesObj (some m)
      | none => .errs

/-- `FiniteSurrealSet.largest`: the body is
`raise max(self) if self else None` — likewise always a `raise`. -/
def FiniteSurrealSet.largest (fuel : Nat) : SList → CallOutcome
  | .nil => .raisesObj none
  | .cons x rest =>
      match pyMaxFrom fuel x rest with
      | some m => .raisesObj (some m)
      | none => .errs

/-- Whether a `CallOutcome` is a normal return. -/
def CallOutcome.isReturns : CallOutcome → Bool
  | .returns _ => true
  | _ => false

/-- The specification side of the comparison refinement (spec §4.2/§8):
"`number < set` means the number is strictly less than every element of the
set", elementwise through the program's own dispatched strict comparison.
This definition follows the spec's words; it is the reference against which
the implementation's `numLtSet` fast path is compared. -/
def spec_num_lt_all (fuel : Nat) (q : Surreal) : SList → Option Bool
  | .nil => some true
  | .cons x rest =>
      match run fuel (.lt q x) with
      | some false => some false
      | some true => spec_num_lt_all fuel q rest
      | none => none

theorem land_self_eq (m : ℕ) : m &&& m = m := by
  apply Nat.eq_of_testBit_eq
  intro i
  simp [Nat.testBit_land]

theorem land_two_mul_pred (m : ℕ) (hm : 0 < m) :
    2 * m &&& (2 * m - 1) = 2 * (m &&& (m - 1)) := by
  have h1 : 2 * m = Nat.bit false m := by simp [Nat.bit_val]
  have h2 : 2 * m - 1 = Nat.bit true (m - 1) := by
    simp only [Nat.bit_val, Bool.toNat_true]
    omega
  rw [h2, h1, Nat.land_bit]
  simp [Nat.bit_val]

theorem land_succ_two_mul (m : ℕ) : (2 * m + 1) &&& (2 * m) = 2 * m := by
  have h1 : 2 * m + 1 = Nat.bit true m := by simp [Nat.bit_val]
  have h2 : 2 * m = Nat.bit false m := by simp [Nat.bit_val]
  calc (2 * m + 1) &&& (2 * m) = Nat.bit true m &&& Nat.bit false m := by rw [h1, h2]
    _ = Nat.bit (true && false) (m &&& m) := by rw [Nat.land_bit]
    _ = 2 * m := by simp [Nat.bit_val, land_self_eq]

/-- The classic power-of-two test: for positive `n`, `n & (n - 1) == 0` holds
exactly when `n` is a power of two. -/
theorem land_pred_eq_zero_iff :
    ∀ n : ℕ, 0 < n → ((n &&& (n - 1) = 0) ↔ ∃ k : ℕ, n = 2 ^ k) := by
  intro n
  induction n using Nat.strong_induction_on with
  | _ n ih =>
    intro hn
    rcases Nat.even_or_odd n with he | ho
    · obtain ⟨m, hm⟩ := he
      have hm2 : n = 2 * m := by omega
      have hmpos : 0 < m := by omega
      rw [hm2, land_two_mul_pred m hmpos]
      constructor
      · intro h
        have h0 : m &&& (m - 1) = 0 := by omega
        obtain ⟨k, hk⟩ := (ih m (by omega) hmpos).1 h0
        exact ⟨k + 1, by rw [hk]; ring⟩
      · rintro ⟨k, hk⟩
        have hk1 : k ≠ 0 := by
          rintro rfl
          simp only [pow_zero] at hk
          omega
        obtain ⟨j, rfl⟩ := Nat.exists_eq_succ_of_ne_zero hk1
        have hpow : (2 : ℕ) ^ (j + 1) = 2 * 2 ^ j := by ring
        have h0 : m &&& (m - 1) = 0 := (ih m (by omega) hmpos).2 ⟨j, by omega⟩
        omega
    · obtain ⟨m, hm⟩ := ho
      subst hm
      by_cases hm0 : m = 0
      · subst hm0
        constructor
        · intro _
          exact ⟨0, by norm_num⟩
        · intro _
          decide
      · rw [show 2 * m + 1 - 1 = 2 * m by omega, land_succ_two_mul]
        constructor
        · intro h
          omega
        · rintro ⟨k, hk⟩
          exfalso
          cases k with
          | zero =>
            simp only [pow_zero] at hk
            omega
          | succ j =>
            have h2 : 2 ^ (j + 1) = 2 * 2 ^ j := by ring
            omega

/-- `_is_power_of_2` agrees with the mathematical predicate on positive
integers. -/
theorem is_power_of_2_iff (k : Int) (hk : 0 < k) :
    _is_power_of_2 k = true ↔ ∃ j : ℕ, k = 2 ^ j := by
  unfold _is_power_of_2
  rw [if_neg (by omega), if_neg (by omega)]
  simp only [decide_eq_true_eq]
  rw [land_pred_eq_zero_iff k.toNat (by omega)]
  constructor
  · rintro ⟨j, hj⟩
    refine ⟨j, ?_⟩
    have hcast : ((2 ^ j : ℕ) : Int) = 2 ^ j := by push_cast; rfl
    omega
  · rintro ⟨j, hj⟩
    refine ⟨j, ?_⟩
    have hcast : ((2 ^ j : ℕ) : Int) = 2 ^ j := by push_cast; rfl
    omega

/-- `is_dyadic` agrees with the mathematical predicate "the reduced
denominator is a power of two". -/
theorem is_dyadic_iff (q : Rat) : is_dyadic q = true ↔ ∃ j : ℕ, q.den = 2 ^ j := by
  unfold is_dyadic
  simp only [decide_eq_true_eq]
  exact land_pred_eq_zero_iff q.den q.den_pos

/-- The denominator of the reduced fraction `a / b` divides `|b|`. -/
theorem den_pyFraction_dvd (a b : Int) : (pyFraction a b).den ∣ b.natAbs := by
  unfold pyFraction
  rw [Rat.mkRat_eq_divInt]
  have h := Rat.den_dvd (if b < 0 then -a else a) (b.natAbs : Int)
  exact_mod_cast h

/-- Dividing an integer by a power of two yields a dyadic value. -/
theorem is_dyadic_pyFraction_pow2 (m : Int) (j : ℕ) :
    is_dyadic (pyFraction m (2 ^ j)) = true := by
  have hdvd : (pyFraction m (2 ^ j)).den ∣ 2 ^ j := by
    have h := den_pyFraction_dvd m (2 ^ j)
    rwa [Int.natAbs_pow] at h
  obtain ⟨i, _, hi⟩ := (Nat.dvd_prime_pow Nat.prime_two).1 hdvd
  exact (is_dyadic_iff _).2 ⟨i, hi⟩

theorem nat_three_ne_two_pow (j : ℕ) : (3 : ℕ) ≠ 2 ^ j := by
  cases j with
  | zero => decide
  | succ i =>
    cases i with
    | zero => decide
    | succ l =>
      have h4 : 2 ^ (l + 2) = 4 * 2 ^ l := by ring
      have hpos : 0 < 2 ^ l := Nat.pos_pow_of_pos l (by norm_num)
      omega

theorem int_three_ne_two_pow (j : ℕ) : (3 : Int) ≠ 2 ^ j := by
  intro h
  have hcast : ((2 ^ j : ℕ) : Int) = 2 ^ j := by push_cast; rfl
  exact nat_three_ne_two_pow j (by omega)

/-- Claim C1: the claimed equivalence `a <= b ↔ (every element of a.left < b)
∧ (a < every element of b.right)` fails on the code.  With
`a = DyadicFractionSurreal(1/2)` and `b = BasicSurreal({0}, {1/2})`
(a numeric generic form built from canonical forms, equivalent to 1/4),
`a <= b` evaluates to `True` — the right conjunct is decided by the dyadic
shortcut, which accepts the non-strict witness `1/2 <= 1/2` in `b.right` —
although every element of `a.left` (namely 0) is indeed `< b` while `a` is
not strictly less than the element `1/2` of `b.right`, so the claimed
right-hand side is false. -/
theorem c1_le_right_shortcut_divergence :
    run 8 (.le (.dy (mkRat 1 2))
      (.basic (.explicit (.cons (.int 0) .nil))
              (.explicit (.cons (.dy (mkRat 1 2)) .nil)))) = some true ∧
    Surreal.leftS (.dy (mkRat 1 2)) = .explicit (.cons (.dy 0) .nil) ∧
    run 8 (.lt (.dy 0) (.basic (.explicit (.cons (.int 0) .nil))
              (.explicit (.cons (.dy (mkRat 1 2)) .nil)))) = some true ∧
    Surreal.rightS (.basic (.explicit (.cons (.int 0) .nil))
              (.explicit (.cons (.dy (mkRat 1 2)) .nil))) =
      .explicit (.cons (.dy (mkRat 1 2)) .nil) ∧
    run 8 (.lt (.dy (mkRat 1 2)) (.dy (mkRat 1 2))) = some false := by
  decide

/-- Claim C2: `FiniteSurrealSet.smallest`/`largest` never return: their bodies
are `raise (min|max)(self) if self else None`, a `raise` statement where the
docstring promises a returned element or `None`.  On the singleton explicit
set `{0}` both calls raise the computed extremum instead of returning it. -/
theorem c2_smallest_largest_always_raise :
    (∀ (fuel : Nat) (xs : SList),
        (FiniteSurrealSet.smallest fuel xs).isReturns = false ∧
        (FiniteSurrealSet.largest fuel xs).isReturns = false) ∧
    FiniteSurrealSet.smallest 3 (.cons (.int 0) .nil) = .raisesObj (some (.int 0)) ∧
    FiniteSurrealSet.largest 3 (.cons (.int 0) .nil) = .raisesObj (some (.int 0)) := by
  refine ⟨?_, by decide, by decide⟩
  intro fuel xs
  constructor
  · cases xs with
    | nil => simp [FiniteSurrealSet.smallest, CallOutcome.isReturns]
    | cons x rest =>
      simp only [FiniteSurrealSet.smallest]
      cases pyMinFrom fuel x rest <;> simp [CallOutcome.isReturns]
  · cases xs with
    | nil => simp [FiniteSurrealSet.largest, CallOutcome.isReturns]
    | cons x rest =>
      simp only [FiniteSurrealSet.largest]
      cases pyMaxFrom fuel x rest <;> simp [CallOutcome.isReturns]

/-- Claim C3: the `DyadicFractionSurreal` fast path does not agree with the
general rule "`q < s` iff `q` is strictly less than every element of `s`".
For `q = 1/2` and the explicit set `s = {1/2}`, the shortcut accepts the
non-strict witness `1/2 <= 1/2` and returns `True`, while `q` is not strictly
less than the element `1/2` (the spec-side elementwise comparison yields
`False`). -/
theorem c3_fast_path_set_comparison_divergence :
    run 8 (.numLtSet (.dy (mkRat 1 2)) (.explicit (.cons (.dy (mkRat 1 2)) .nil))) = some true ∧
    spec_num_lt_all 8 (.dy (mkRat 1 2)) (.cons (.dy (mkRat 1 2)) .nil) = some false := by
  decide

/-- Claim C4: for `ω − n` with `n > 1` (stored addend `−n < −1`) the Right set
is `{ω − (n−1)}` as claimed, but the Left set is the same singleton
`{ω − (n−1)}` — not `AllDyadics` — so the form even violates the documented
numeric well-formedness (its only left element equals its only right
element). -/
theorem c4_omega_minus_n_left_right (n : Int) (h : 1 < n) :
    Surreal.rightS (.omegaPlus (-n)) = .explicit (.cons (.omegaPlus (-(n - 1))) .nil) ∧
    Surreal.leftS (.omegaPlus (-n)) = .explicit (.cons (.omegaPlus (-(n - 1))) .nil) ∧
    Surreal.leftS (.omegaPlus (-n)) ≠ SSet.dyadics := by
  have h1 : ¬(-n = -1) := by omega
  have h2 : ¬(1 ≤ -n) := by omega
  have h3 : ¬(-n = 1) := by omega
  have h4 : ¬(1 < -n) := by omega
  have he : -n + 1 = -(n - 1) := by ring
  refine ⟨?_, ?_, ?_⟩ <;> simp [Surreal.rightS, Surreal.leftS, h1, h2, h3, h4, he]

/-- Claim C4, witnessed at `n = 2`: `ω − 2` has Left = Right = `{ω − 1}`. -/
theorem c4_omega_minus_n_left_right_witness :
    Surreal.rightS (.omegaPlus (-(2 : Int))) =
      .explicit (.cons (.omegaPlus (-((2 : Int) - 1))) .nil) ∧
    Surreal.leftS (.omegaPlus (-(2 : Int))) =
      .explicit (.cons (.omegaPlus (-((2 : Int) - 1))) .nil) ∧
    Surreal.leftS (.omegaPlus (-(2 : Int))) ≠ SSet.dyadics :=
  c4_omega_minus_n_left_right 2 (by norm_num)

/-- Claim C5, counterexample: `convert(1) / convert(3)` does not fail — the
non-power-of-two integer divisor falls through to native `operator.truediv`,
which returns the float `1/3` (here recorded as the exact ratio). -/
theorem c5_one_div_three_returns_float :
    IntegerSurreal.truediv 1 (.int 3) = .float (pyFraction 1 3) ∧
    pyFraction 1 3 = mkRat 1 3 := by
  decide

/-- Claim C5, amended: integer division by a power of two yields the canonical
dyadic quotient; integer division by any other positive integer returns the
native float quotient instead of failing; dyadic-fraction division by a
dyadic-fraction divisor with a non-dyadic quotient fails with the
non-dyadic-result error (`NotImplementedError`). -/
theorem c5_division_behaviour :
    (∀ (m : Int) (j : ℕ),
        IntegerSurreal.truediv m (.int (2 ^ j)) = .value (.dy (pyFraction m (2 ^ j)))) ∧
    (∀ m k : Int, 0 < k → (∀ j : ℕ, k ≠ 2 ^ j) →
        IntegerSurreal.truediv m (.int k) = .float (pyFraction m k)) ∧
    (∀ p q : Rat, q ≠ 0 → is_dyadic (fracDiv p q) = false →
        DyadicFractionSurreal.truediv p (.dy q) = .error .notImplementedError) := by
  refine ⟨?_, ?_, ?_⟩
  · intro m j
    have hpos : (0 : Int) < 2 ^ j := pow_pos (by norm_num) j
    have hp2 : _is_power_of_2 (2 ^ j) = true := (is_power_of_2_iff _ hpos).2 ⟨j, rfl⟩
    simp only [IntegerSurreal.truediv, hp2, if_pos, if_neg (by omega : ¬(2 ^ j : Int) = 0),
      if_true, mkDFS, is_dyadic_pyFraction_pow2]
  · intro m k hk hnp
    have hp2 : _is_power_of_2 k = false := by
      cases hb : _is_power_of_2 k
      · rfl
      · exfalso
        obtain ⟨j, hj⟩ := (is_power_of_2_iff k hk).1 hb
        exact hnp j hj
    simp [IntegerSurreal.truediv, hp2]
  · intro p q hq hnd
    have hden : (fracDiv p q).den ≠ 1 := by
      intro hd
      rw [show is_dyadic (fracDiv p q) =
            decide ((fracDiv p q).den &&& ((fracDiv p q).den - 1) = 0) from rfl, hd] at hnd
      simp at hnd
    simp [DyadicFractionSurreal.truediv, hq, Surreal.from_fraction, hden, hnd]

/-- Claim C5, witness: `2 / 3` returns the float `2/3`; `(1/2) / (3/2)`
(quotient `1/3`, not dyadic) raises `NotImplementedError`. -/
theorem c5_division_behaviour_witness :
    IntegerSurreal.truediv 2 (.int 3) = .float (pyFraction 2 3) ∧
    DyadicFractionSurreal.truediv (mkRat 1 2) (.dy (mkRat 3 2)) = .error .notImplementedError :=
  ⟨c5_division_behaviour.2.1 2 3 (by norm_num) (fun j => int_three_ne_two_pow j),
   c5_division_behaviour.2.2 (mkRat 1 2) (mkRat 3 2) (by decide) (by decide)⟩

/-- Claim C6: `birthday(IntegerForm(n)) = |n|` holds, and
`birthday_finite()` is `True` for all dyadic forms; but
`DyadicFractionSurreal.birthday` returns `abs` of the stored fraction itself
— at `3/4` it returns the non-integer rational `3/4` rather than a natural
number, contradicting the `Surreal.birthday` docstring ("If the birthday is
finite a Python int should be returned"). -/
theorem c6_birthday_values :
    (∀ n : Int, IntegerSurreal.birthday n = |n|) ∧
    DyadicSurreal.birthday_finite = true ∧
    DyadicFractionSurreal.birthday (mkRat 3 4) = mkRat 3 4 ∧
    (DyadicFractionSurreal.birthday (mkRat 3 4)).isInt = false :=
  ⟨fun _ => rfl, rfl, by decide, by decide⟩

/-- Claim C7: `from_fraction` (the conversion layer for exact rationals)
returns `IntegerSurreal(num)` when the reduced denominator is 1, the
canonical `DyadicFractionSurreal` when the reduced denominator is any other
power of two, and fails with an error (`NotImplementedError`) whenever the
reduced denominator is not a power of two. -/
theorem c7_from_fraction_characterization (q : Rat) :
    ((∃ k : ℕ, q.den = 2 ^ k) →
        Surreal.from_fraction q = .ok (if q.den = 1 then .int q.num else .dy q)) ∧
    ((∀ k : ℕ, q.den ≠ 2 ^ k) → Surreal.from_fraction q = .error .notImplementedError) := by
  constructor
  · rintro ⟨k, hk⟩
    by_cases h1 : q.den = 1
    · simp [Surreal.from_fraction, h1]
    · have hd : is_dyadic q = true := (is_dyadic_iff q).2 ⟨k, hk⟩
      simp [Surreal.from_fraction, h1, hd]
  · intro h
    have h1 : q.den ≠ 1 := by
      intro hd
      exact h 0 (by simpa using hd)
    have hd : is_dyadic q = false := by
      cases hb : is_dyadic q
      · rfl
      · exfalso
        obtain ⟨k, hk⟩ := (is_dyadic_iff q).1 hb
        exact h k hk
    simp [Surreal.from_fraction, h1, hd]

/-- Claim C7, witness: `1/3` fails with an error; `3/4` converts to the
canonical dyadic-fraction form. -/
theorem c7_from_fraction_witness :
    Surreal.from_fraction (mkRat 1 3) = .error .notImplementedError ∧
    Surreal.from_fraction (mkRat 3 4) =
      .ok (if (mkRat 3 4).den = 1 then .int (mkRat 3 4).num else .dy (mkRat 3 4)) := by
  constructor
  · apply (c7_from_fraction_characterization (mkRat 1 3)).2
    intro k
    have hden : (mkRat 1 3).den = 3 := by decide
    rw [hden]
    exact nat_three_ne_two_pow k
  · exact (c7_from_fraction_characterization (mkRat 3 4)).1 ⟨2, by decide⟩

/-- Claim C8: `a == a` returns `True` for every form via the identity
shortcut in `Surreal.__eq__`, while `<=` is not reflexive: by the
`DyadicsType.__lt__` rule `AllDyadics < ±ω` is `False`, so
`ω <= ω` — which evaluates `DYADICS < ω` first — is `False`. -/
theorem c8_eq_reflexive_le_not :
    (∀ (a : Surreal) (fuel : Nat), run (fuel + 1) (.eq a a) = some true) ∧
    run 2 (.le OMEGA OMEGA) = some false ∧
    run 1 (.setLtNum .dyadics OMEGA) = some false ∧
    run 1 (.setLtNum .dyadics NEGATIVE_OMEGA) = some false := by
  refine ⟨?_, by decide, by decide, by decide⟩
  intro a fuel
  cases a <;> simp [run]

/-- Claim C9: `OmegaType.__add__` never consults `self._sign`, so `+ω + n`
and `−ω + n` build the same `OmegaPlusInteger(n)`; a zero addend raises
`ValueError` from the `OmegaPlusInteger` constructor instead of returning
the receiver. -/
theorem c9_omega_add_ignores_sign :
    (∀ n : Int, n ≠ 0 →
        OmegaType.add true n = .ok (.omegaPlus n) ∧
        OmegaType.add false n = .ok (.omegaPlus n)) ∧
    OmegaType.add true 0 = .error .valueError ∧
    OmegaType.add false 0 = .error .valueError := by
  refine ⟨fun n hn => ⟨?_, ?_⟩, rfl, rfl⟩ <;> simp [OmegaType.add, hn]

/-- Claim C9, witness: `ω + 1` and `−ω + 1` coincide. -/
theorem c9_omega_add_witness :
    OmegaType.add true 1 = .ok (.omegaPlus 1) ∧
    OmegaType.add false 1 = .ok (.omegaPlus 1) :=
  c9_omega_add_ignores_sign.1 1 (by norm_num)

/-- Claim C10: both `__pos__` implementations are the bare expression
statement `self` with no `return`, so unary plus returns `None` for every
integer and dyadic-fraction form. -/
theorem c10_pos_returns_none :
    (∀ n : Int, IntegerSurreal.pos n = none) ∧
    (∀ q : Rat, DyadicFractionSurreal.pos q = none) :=
  ⟨fun _ => rfl, fun _ => rfl⟩

end Babou
